import Mathlib

/-!
Verification of the incremental update and playlist-reconciliation engine of
the down-the-foxhole repository (src/dtf).  Python code is shallowly embedded:
datetimes become Int seconds since an arbitrary epoch, video dicts become a
flat structure keeping the fields the engine reads, external API calls become
fields of an environment record, and Python operations that can raise
(sorting tuples with unorderable components, attribute access on None) return
Except Unit.
-/

namespace DTF

/-- Seconds in a day; datetime.timedelta(days=d) is modelled as d * 86400. -/
def daySeconds : Int := 86400

/-- settings.MAX_RETRIES -/
def MAX_RETRIES : Nat := 8

/-- settings.BASE_SLEEP_SECONDS -/
def BASE_SLEEP_SECONDS : Nat := 10

/-- settings.MAX_SLEEP_SECONDS = int(1.5 * 60 * 60) -/
def MAX_SLEEP_SECONDS : Nat := 5400

/-- settings.DEFAULT_UPDATE_DAYS -/
def DEFAULT_UPDATE_DAYS : Int := 90

/-- One video entry as stored in ChannelInfo.videos / returned by
get_channel_videos.  videoId models snippet.resourceId.videoId,
publishedAt models snippet.publishedAt (always present on API items),
contentVideoPublishedAt models contentDetails.videoPublishedAt, which
_get_latest_videopublishedat treats as optional. -/
structure Video where
  videoId : String
  publishedAt : Int
  contentVideoPublishedAt : Option Int
  deriving Repr, DecidableEq

/-- definitions.ChannelInfo (pydantic model). -/
structure ChannelInfo where
  channel_id : String
  channel_title : String
  playlist_id : String
  last_updated_datetime : Option Int
  videos_sha1hash : String
  videos : List Video
  deriving Repr, DecidableEq

/-- functions.window: sliding-window generator.  The first tuple of width n is
yielded only when the sequence has at least n items; every further item shifts
the window by one.  slideLoop models the trailing for-loop. -/
def slideLoop {α : Type} : List α → List α → List (List α)
  | _, [] => []
  | result, e :: rest =>
      let r := result.drop 1 ++ [e]
      r :: slideLoop r rest

/-- functions.window entry point: result = tuple(islice(it, n)); yield it when
len(result) == n; then the shift loop over the remaining items. -/
def window {α : Type} (seq : List α) (n : Nat) : List (List α) :=
  let result := seq.take n
  let rest := seq.drop n
  let init := if result.length = n then [result] else []
  init ++ slideLoop result rest

/-- External collaborators and clock for Collector.update, as an explicit
environment: fetch is the videos component of get_channel_videos,
appendResult is update_channel_playlist (the subset successfully added),
hashVideos is get_videos_hash, now is datetime.datetime.now(utc). -/
structure Env where
  fetch : String → List Video
  appendResult : String → List Video → List Video
  hashVideos : List Video → String
  now : Int

/-- Collector._get_latest_videopublishedat: maximum of the
contentDetails.videoPublishedAt values present among the record's videos,
none when no video has one. -/
def latestVideopublishedat (ci : ChannelInfo) : Option Int :=
  ci.videos.foldl
    (fun latest v =>
      match v.contentVideoPublishedAt with
      | none => latest
      | some t =>
          match latest with
          | none => some t
          | some l => if t > l then some t else some l)
    none

/-- The for-loop body of Collector._get_channel_new_videos: keep a fetched
video when its publish timestamp is strictly greater than the watermark and
its video id is not among the already-recorded ids. -/
def newVideosLoop (latest : Int) (existing : List String) : List Video → List Video
  | [] => []
  | v :: rest =>
      if v.publishedAt > latest then
        if existing.contains v.videoId then
          newVideosLoop latest existing rest
        else
          v :: newVideosLoop latest existing rest
      else
        newVideosLoop latest existing rest

/-- Collector._get_channel_new_videos. -/
def getChannelNewVideos (env : Env) (latest : Int) (ci : ChannelInfo) : List Video :=
  let existing := ci.videos.map (fun v => v.videoId)
  let videos := env.fetch ci.channel_id
  newVideosLoop latest existing videos

/-- The cooldown test in Collector.update: channel_info.last_updated_datetime
is set and is at least one_week_ago = now - 7 days. -/
def inCooldown (now : Int) (ci : ChannelInfo) : Bool :=
  match ci.last_updated_datetime with
  | none => false
  | some d => decide (d ≥ now - 7 * daySeconds)

/-- In-memory/persisted store of channel records (Collector._data plus the
per-channel files), keyed by channel_id. -/
abbrev Store : Type := List (String × ChannelInfo)

/-- Collector._set_channel_data: overwrite the entry for the record's
channel_id. -/
def setStore (store : Store) (ci : ChannelInfo) : Store :=
  store.filter (fun p => p.1 ≠ ci.channel_id) ++ [(ci.channel_id, ci)]

/-- Observable state of one Collector.update run: the record store, the
sequence of persisted writes, and the per-page active-section invocations. -/
structure UpdateState where
  store : Store
  writes : List ChannelInfo
  activeCalls : List (List String)
  deriving DecidableEq

/-- The merge-and-persist branch of Collector.update for one worklist record
(reached when the cooldown does not apply): compute the delta, and when it is
nonempty append to the playlist, extend videos, recompute the hash, stamp
last_updated_datetime, persist, and record the playlist id as updated this
page. -/
def consumeRecord (env : Env) (st : UpdateState) (ids : List String)
    (latest : Int) (ci : ChannelInfo) : UpdateState × List String :=
  let newVideos := getChannelNewVideos env latest ci
  if newVideos.isEmpty then
    (st, ids)
  else
    let appended := env.appendResult ci.playlist_id newVideos
    let allVideos := ci.videos ++ appended
    let ci' : ChannelInfo :=
      { ci with
        videos := allVideos
        videos_sha1hash := env.hashVideos allVideos
        last_updated_datetime := some env.now }
    ({ st with store := setStore st.store ci', writes := st.writes ++ [ci'] },
     ids ++ [ci.playlist_id])

/-- One iteration of the inner per-record loop of Collector.update: skip the
record when it was updated within the last week, otherwise merge/persist. -/
def processRecord (env : Env) (st : UpdateState) (ids : List String)
    (latest : Int) (ci : ChannelInfo) : UpdateState × List String :=
  if inCooldown env.now ci then
    (st, ids)
  else
    consumeRecord env st ids latest ci

/-- One page of Collector.update: fold the per-record step over the page with
an empty updated_playlist_ids accumulator, then invoke the active-section
update exactly when some playlist was updated this page (recorded as a call
trace entry). -/
def updatePage (env : Env) (st : UpdateState) (page : List (Int × ChannelInfo)) :
    UpdateState :=
  let stepped := page.foldl
    (fun acc p => processRecord env acc.1 acc.2 p.1 p.2) (st, ([] : List String))
  let st' := stepped.1
  let ids := stepped.2
  if ids.isEmpty then st' else
    { st' with activeCalls := st'.activeCalls ++ [ids] }

/-- The consumption loop of Collector.update (managers.py lines 278-323):
iterate window(channels_to_check, n=5) and process each yielded page. -/
def collectorUpdate (env : Env) (channelsToCheck : List (Int × ChannelInfo))
    (store : Store) : UpdateState :=
  (window channelsToCheck 5).foldl (updatePage env)
    { store := store, writes := [], activeCalls := [] }

/-! Python sorting.  sorted(results, reverse=True) compares tuples with the
built-in lexicographic rule: first components are tested for equality, equal
first components fall through to comparing second components, distinct first
components are ordered.  ChannelInfo values (pydantic models) are unorderable,
and None is unorderable against a datetime, so those comparisons raise
TypeError, modelled as Except.error.  The sort itself is modelled as a stable
insertion sort over the fallible comparator; reverse=True reverses the input,
sorts ascending, and reverses the output, which is how CPython implements it
to keep stability. -/

/-- Insert one element into an already sorted list using a fallible less-than,
propagating a TypeError from any comparison. -/
def insertF {α : Type} (lt : α → α → Except Unit Bool) (x : α) :
    List α → Except Unit (List α)
  | [] => .ok [x]
  | y :: ys =>
      match lt x y with
      | .error e => .error e
      | .ok true => .ok (x :: y :: ys)
      | .ok false =>
          match insertF lt x ys with
          | .error e => .error e
          | .ok r => .ok (y :: r)

/-- Fallible ascending sort by repeated insertion. -/
def sortF {α : Type} (lt : α → α → Except Unit Bool) :
    List α → Except Unit (List α)
  | [] => .ok []
  | x :: xs =>
      match sortF lt xs with
      | .error e => .error e
      | .ok s => insertF lt x s

/-- sorted(l, reverse=True). -/
def pySortedRev {α : Type} (lt : α → α → Except Unit Bool) (l : List α) :
    Except Unit (List α) :=
  match sortF lt l.reverse with
  | .error e => .error e
  | .ok s => .ok s.reverse

/-- Python less-than on (Optional[datetime], ChannelInfo) tuples: equal
datetimes (or two Nones) fall through to the unorderable ChannelInfo and
raise; None against a datetime raises on the first component. -/
def tupLtChannel : (Option Int × ChannelInfo) → (Option Int × ChannelInfo) →
    Except Unit Bool
  | (some a, _), (some b, _) =>
      if a = b then .error () else .ok (decide (a < b))
  | (_, _), (_, _) => .error ()

/-- Python less-than on (Optional[datetime], str) tuples: equal first
components fall through to the orderable playlist-id strings; None against a
datetime raises. -/
def tupLtPlaylist : (Option Int × String) → (Option Int × String) →
    Except Unit Bool
  | (some a, s1), (some b, s2) =>
      .ok (if a = b then decide (s1 < s2) else decide (a < b))
  | (none, s1), (none, s2) => .ok (decide (s1 < s2))
  | (_, _), (_, _) => .error ()

/-- One iteration of the accumulation loop of
Collector._get_channelinfo_sortedby_videopublishedat, kept faithful to the
source: records with no resolvable watermark are dropped, and the
gte_datetime test appends the record in both of its branches. -/
def sortedbyStep (gte : Option Int) (results : List (Option Int × ChannelInfo))
    (ci : ChannelInfo) : List (Option Int × ChannelInfo) :=
  match latestVideopublishedat ci with
  | none => results
  | some t =>
      match gte with
      | some g =>
          if t ≥ g then results ++ [(some t, ci)]
          else results ++ [(some t, ci)]
      | none => results ++ [(some t, ci)]

/-- The accumulation loop of
Collector._get_channelinfo_sortedby_videopublishedat. -/
def sortedbyLoop (gte : Option Int) (data : List ChannelInfo) :
    List (Option Int × ChannelInfo) :=
  data.foldl (sortedbyStep gte) []

/-- Collector._get_channelinfo_sortedby_videopublishedat: accumulate then
sorted(results, reverse=True). -/
def getChannelinfoSortedbyVideopublishedat (data : List ChannelInfo)
    (gte : Option Int) : Except Unit (List (Option Int × ChannelInfo)) :=
  pySortedRev tupLtChannel (sortedbyLoop gte data)

/-- One iteration of the accumulation loop of
Collector._get_channelinfo_by_channelids: keep loaded records whose
channel_id is among the requested ids; the watermark is not required to
exist here. -/
def byChannelidsStep (channelIds : List String)
    (results : List (Option Int × ChannelInfo)) (ci : ChannelInfo) :
    List (Option Int × ChannelInfo) :=
  if channelIds.contains ci.channel_id then
    results ++ [(latestVideopublishedat ci, ci)]
  else results

/-- The accumulation loop of Collector._get_channelinfo_by_channelids. -/
def byChannelidsLoop (channelIds : List String) (data : List ChannelInfo) :
    List (Option Int × ChannelInfo) :=
  data.foldl (byChannelidsStep channelIds) []

/-- Collector._get_channelinfo_by_channelids. -/
def getChannelinfoByChannelids (data : List ChannelInfo)
    (channelIds : List String) : Except Unit (List (Option Int × ChannelInfo)) :=
  pySortedRev tupLtChannel (byChannelidsLoop channelIds data)

/-! create_channel_playlist retry protocol (functions.py lines 290-324). -/

/-- Outcome of one request.execute() attempt of the playlists().insert call:
either the response (carrying the created playlist id) or an HttpError with
its status code and first error_details reason. -/
inductive ApiResult where
  | success (playlistId : String)
  | httpError (statusCode : Nat) (detailedReason : Option String)
  deriving Repr, DecidableEq

/-- How the while-True loop of create_channel_playlist ends: break with a
playlist id, an exception propagating to the caller, sys.exit(1), or the
modelling artefact of running out of scripted attempts. -/
inductive CreateOutcome where
  | created (playlistId : String) (slept : List Nat)
  | raised (slept : List Nat)
  | exited (slept : List Nat)
  | noMoreAttempts (slept : List Nat)
  deriving Repr, DecidableEq

/-- sleep_seconds = BASE_SLEEP_SECONDS ** retries, capped at
MAX_SLEEP_SECONDS. -/
def capSleep (base cap r : Nat) : Nat :=
  let s := base ^ r
  if s > cap then cap else s

/-- The while-True loop of create_channel_playlist, driven by the scripted
attempt results; retries starts at 0 and slept records each back-off sleep in
order.  Branch order is the source's: retryable rate-limit first, then the
max-retries re-raise, then the quota-exhaustion sys.exit(1), then re-raise. -/
def createPlaylistLoop (maxRetries base cap : Nat) :
    List ApiResult → Nat → List Nat → CreateOutcome
  | [], _, slept => .noMoreAttempts slept
  | .success pid :: _, _, slept => .created pid slept
  | .httpError status reason :: rest, retries, slept =>
      if retries ≤ maxRetries ∧ status = 429 ∧ reason = some "RATE_LIMIT_EXCEEDED" then
        createPlaylistLoop maxRetries base cap rest (retries + 1)
          (slept ++ [capSleep base cap (retries + 1)])
      else if retries > maxRetries then .raised slept
      else if status = 403 ∧ reason = some "quotaExceeded" then .exited slept
      else .raised slept

/-- How a run over a worklist of channels ends. -/
inductive RunStatus where
  | completed
  | exited
  | raised
  | starved
  deriving Repr, DecidableEq

/-- The cli create loop: process_channel is called for each channel id in
order; on successful playlist creation the channel record is persisted
(abstracted to recording the channel id in the store), sys.exit(1) terminates
the process at once, and an uncaught exception likewise ends the run (no
try/except surrounds the loop). -/
def runCreate (maxRetries base cap : Nat) :
    List (String × List ApiResult) → List String → List String × RunStatus
  | [], store => (store, .completed)
  | (cid, attempts) :: rest, store =>
      match createPlaylistLoop maxRetries base cap attempts 0 [] with
      | .created _ _ => runCreate maxRetries base cap rest (store ++ [cid])
      | .exited _ => (store, .exited)
      | .raised _ => (store, .raised)
      | .noMoreAttempts _ => (store, .starved)

/-! Collector.update_active_journeys_section and
Collector._update_active_playlists_collection. -/

/-- The cold-cache for-loop of update_active_journeys_section: an existing
section member not already in the (growing) playlist_ids_to_add list is kept
iff its latest publish datetime is at least days_ago; a missing datetime would
raise AttributeError on the .replace call (modelled as Except.error). -/
def keepLoop (cutoff : Int) :
    List (String × Option Int × ChannelInfo) → List String →
    Except Unit (List String)
  | [], acc => .ok acc
  | (pid, latest, _) :: rest, acc =>
      if acc.contains pid then keepLoop cutoff rest acc
      else
        match latest with
        | none => .error ()
        | some t =>
            if t ≥ cutoff then keepLoop cutoff rest (acc ++ [pid])
            else keepLoop cutoff rest acc

/-- The accumulation loop of _update_active_playlists_collection: pair each
loaded record whose playlist_id is among the requested ids with its
watermark. -/
def orderedPlaylistsLoop (ids : List String) (data : List ChannelInfo) :
    List (Option Int × String) :=
  data.foldl
    (fun acc ci =>
      if ids.contains ci.playlist_id then
        acc ++ [(latestVideopublishedat ci, ci.playlist_id)]
      else acc)
    []

/-- Collector._update_active_playlists_collection: order the requested
playlists by watermark descending, truncate to the configured maximum, write
back and cache; the written membership is returned.  The maximum
(settings.CHANNELSECTION_UPDATE_MAX_PLAYLISTS) is not present in
src/dtf/settings.py, so it is a parameter here (spec: a configurable upper
bound on membership count). -/
def updateActivePlaylistsCollection (maxPlaylists : Nat)
    (data : List ChannelInfo) (ids : List String) :
    Except Unit (List String) :=
  match pySortedRev tupLtPlaylist (orderedPlaylistsLoop ids data) with
  | .error e => .error e
  | .ok sorted => .ok ((sorted.map Prod.snd).take maxPlaylists)

/-- Collector.update_active_journeys_section: with a cold cache, existing
section members (sectionInfo, the result of _get_active_playlists_section_info)
not among the new ids are kept or dropped by the retention-window test; with a
warm cache the cached ids are unioned in (list(set(...)) leaves order
unspecified, and only membership reaches the write, so a deduplication models
it).  The resulting ids are then written through
_update_active_playlists_collection, whose written membership is returned. -/
def updateActiveJourneysSection (days now : Int) (maxPlaylists : Nat)
    (data : List ChannelInfo) (cache : List String)
    (sectionInfo : List (String × Option Int × ChannelInfo))
    (playlistIdsToAdd : List String) : Except Unit (List String) :=
  let daysAgo := now - days * daySeconds
  let ids :=
    if cache.isEmpty then keepLoop daysAgo sectionInfo playlistIdsToAdd
    else .ok ((playlistIdsToAdd ++ cache).eraseDups)
  match ids with
  | .error e => .error e
  | .ok ids => updateActivePlaylistsCollection maxPlaylists data ids

/-! Concrete fixtures used by scenario conjuncts and witnesses. -/

/-- Scenario video v1, published at t=100. -/
def v1 : Video := ⟨"v1", 100, some 100⟩

/-- Scenario video v2, published at t=150. -/
def v2 : Video := ⟨"v2", 150, some 150⟩

/-- Scenario video v3, published at t=200. -/
def v3 : Video := ⟨"v3", 200, some 200⟩

/-- Scenario channel C with cached videos=[v1], watermark 100. -/
def chanC : ChannelInfo := ⟨"C", "ChanC", "PC", none, "h", [v1]⟩

/-- Environment whose VideoSource returns [v1, v2, v3] for every channel. -/
def envC : Env := ⟨fun _ => [v1, v2, v3], fun _ vs => vs, fun _ => "h2", 1000⟩

/-- Environment whose VideoSource returns only the already-cached v1. -/
def envIdle : Env := ⟨fun _ => [v1], fun _ vs => vs, fun _ => "h2", 1000⟩

/-- A worklist of six identical entries for channel C (long enough that the
page generator yields pages). -/
def wlIdle : List (Int × ChannelInfo) := List.replicate 6 ((100 : Int), chanC)

/-- A channel last updated at T = 0. -/
def chanFresh : ChannelInfo := ⟨"F", "Fresh", "PF", some 0, "h", [v1]⟩

/-- envC with the clock at T + 3 days. -/
def envAt3 : Env := ⟨fun _ => [v1, v2, v3], fun _ vs => vs, fun _ => "h2", 3 * daySeconds⟩

/-- envC with the clock at T + 8 days. -/
def envAt8 : Env := ⟨fun _ => [v1, v2, v3], fun _ vs => vs, fun _ => "h2", 8 * daySeconds⟩

/-- An empty update state. -/
def st0 : UpdateState := ⟨[], [], []⟩

/-- A channel whose single video was published at t=100, far before a window
starting at 910: the spec's window filter would exclude it. -/
def staleChan : ChannelInfo := ⟨"CS", "Stale", "PS", none, "h", [⟨"sv1", 100, some 100⟩]⟩

/-- The retryable rate-limit error (HTTP 429, reason RATE_LIMIT_EXCEEDED). -/
def rateLimitError : ApiResult := .httpError 429 (some "RATE_LIMIT_EXCEEDED")

/-- The quota-exhaustion error (HTTP 403, reason quotaExceeded). -/
def quotaError : ApiResult := .httpError 403 (some "quotaExceeded")

/-- A five-channel creation worklist whose third channel hits quota
exhaustion on its first insert attempt. -/
def wl5 : List (String × List ApiResult) :=
  [("c1", [.success "P1"]), ("c2", [.success "P2"]), ("c3", [quotaError]),
   ("c4", [.success "P4"]), ("c5", [.success "P5"])]

/-- Channel behind playlist P1, watermark 100. -/
def ciP1 : ChannelInfo := ⟨"C1", "T1", "P1", none, "h", [⟨"a1", 100, some 100⟩]⟩

/-- Channel behind playlist P2, watermark 200. -/
def ciP2 : ChannelInfo := ⟨"C2", "T2", "P2", none, "h", [⟨"b1", 200, some 200⟩]⟩

/-- Channel behind playlist P3, watermark 10 (stale). -/
def ciP3 : ChannelInfo := ⟨"C3", "T3", "P3", none, "h", [⟨"c1", 10, some 10⟩]⟩

/-- Loaded records for the curator scenario. -/
def dataX : List ChannelInfo := [ciP1, ciP2, ciP3]

/-- Existing external active-section membership: only P3. -/
def sectionInfoX : List (String × Option Int × ChannelInfo) := [("P3", some 10, ciP3)]

/-- Curator scenario clock: the retention cutoff lands at 1000, above P3's
watermark 10. -/
def nowX : Int := DEFAULT_UPDATE_DAYS * daySeconds + 1000

/-- Two distinct channels with exactly equal watermarks (50). -/
def cE1 : ChannelInfo := ⟨"E1", "a", "PE1", none, "h", [⟨"x1", 5, some 50⟩]⟩

/-- Second channel with watermark 50. -/
def cE2 : ChannelInfo := ⟨"E2", "b", "PE2", none, "h", [⟨"y1", 6, some 50⟩]⟩

/-- A channel with no resolvable watermark (no videos). -/
def cN : ChannelInfo := ⟨"N", "n", "PN", none, "h", []⟩

/-- The strict order realised when tupLtChannel answers ok true: both keys
present and the first strictly smaller. -/
def ltKey (u v : Option Int × ChannelInfo) : Prop :=
  ∃ a b, u.1 = some a ∧ v.1 = some b ∧ a < b

/-- Tuples whose Python comparison succeeds in either direction: both keys
present and distinct. -/
def compatKey (u v : Option Int × ChannelInfo) : Prop :=
  ∃ a b, u.1 = some a ∧ v.1 = some b ∧ a ≠ b

end DTF

namespace DTF

/-! Helper lemmas. -/

/-- The per-record filter loop of _get_channel_new_videos is List.filter with
the conjunction of the strict-watermark and the not-already-recorded tests. -/
theorem newVideosLoop_eq_filter (latest : Int) (existing : List String) :
    ∀ vs : List Video,
      newVideosLoop latest existing vs =
        vs.filter (fun v => decide (latest < v.publishedAt) && !existing.contains v.videoId)
  | [] => rfl
  | v :: rest => by
      by_cases h1 : latest < v.publishedAt
      · by_cases h2 : v.videoId ∈ existing
        · simp [newVideosLoop, List.filter, h1, h2, newVideosLoop_eq_filter latest existing rest]
        · simp [newVideosLoop, List.filter, h1, h2, newVideosLoop_eq_filter latest existing rest]
      · simp [newVideosLoop, List.filter, h1, newVideosLoop_eq_filter latest existing rest]

/-- The gte test of _get_channelinfo_sortedby_videopublishedat appends in both
branches, so one accumulation step does not depend on it. -/
theorem sortedbyStep_gte_noop (g : Int)
    (acc : List (Option Int × ChannelInfo)) (ci : ChannelInfo) :
    sortedbyStep (some g) acc ci = sortedbyStep none acc ci := by
  unfold sortedbyStep
  cases h : latestVideopublishedat ci with
  | none => rfl
  | some t => exact ite_self _

/-- Consequently the whole accumulated worklist does not depend on the gte
bound. -/
theorem sortedbyLoop_gte_noop_aux (g : Int) :
    ∀ (data : List ChannelInfo) (acc : List (Option Int × ChannelInfo)),
      data.foldl (sortedbyStep (some g)) acc = data.foldl (sortedbyStep none) acc
  | [], _ => rfl
  | ci :: rest, acc => by
      rw [List.foldl_cons, List.foldl_cons, sortedbyStep_gte_noop g acc ci]
      exact sortedbyLoop_gte_noop_aux g rest _

/-- C1: the claim states that the selected worklist is consumed in fixed-size
disjoint pages of 5 (last page possibly shorter) with every record processed
exactly once.  The page generator actually used, functions.window, is a
sliding window: a worklist of 3 records yields no page at all, and a worklist
of 6 records yields two overlapping pages in which records 1..4 recur, so the
claim fails on the code. -/
theorem c1_window_sliding_eval :
    window [0, 1, 2] 5 = ([] : List (List Nat)) ∧
    window [0, 1, 2, 3, 4, 5] 5 = [[0, 1, 2, 3, 4], [1, 2, 3, 4, 5]] := by
  constructor <;> rfl

/-- C2: the new-video delta of _get_channel_new_videos is exactly the fetched
list filtered by (publish timestamp strictly greater than the watermark) and
(video id not already recorded), it is a sublist of the fetched list (so the
source's publish-time ascending order is preserved), and on the spec scenario
(cached [v1 at 100], watermark 100, fetch [v1, v2, v3]) it is [v2, v3]. -/
theorem c2_new_videos_delta :
    (∀ (env : Env) (latest : Int) (ci : ChannelInfo),
        getChannelNewVideos env latest ci =
          (env.fetch ci.channel_id).filter
            (fun v => decide (latest < v.publishedAt) &&
              !(ci.videos.map (fun w => w.videoId)).contains v.videoId) ∧
        (getChannelNewVideos env latest ci).Sublist (env.fetch ci.channel_id)) ∧
    getChannelNewVideos envC 100 chanC = [v2, v3] := by
  refine ⟨fun env latest ci => ?_, by rfl⟩
  have hg : getChannelNewVideos env latest ci =
      (env.fetch ci.channel_id).filter
        (fun v => decide (latest < v.publishedAt) &&
          !(ci.videos.map (fun w => w.videoId)).contains v.videoId) := by
    unfold getChannelNewVideos
    exact newVideosLoop_eq_filter latest (ci.videos.map (fun w => w.videoId))
      (env.fetch ci.channel_id)
  exact ⟨hg, hg ▸ List.filter_sublist _⟩

/-- C3: the claim states that window-less selection excludes records whose
watermark lies outside [now - window_days, now].  In the code the gte filter
appends the record in both branches of its conditional, so it is a no-op:
the accumulated worklist equals the unfiltered one, and a record whose
watermark (100) is far below the window start (910) is still returned. -/
theorem c3_window_filter_noop :
    (∀ (data : List ChannelInfo) (g : Int),
        sortedbyLoop (some g) data = sortedbyLoop none data) ∧
    getChannelinfoSortedbyVideopublishedat [staleChan] (some 910) =
      .ok [(some 100, staleChan)] := by
  refine ⟨fun data g => ?_, by rfl⟩
  unfold sortedbyLoop
  exact sortedbyLoop_gte_noop_aux g data []

/-- functions.window yields nothing when the sequence is shorter than the
window width. -/
theorem window_eq_nil_of_length_lt {α : Type} (l : List α) (n : Nat)
    (h : l.length < n) : window l n = [] := by
  unfold window
  have htake : l.take n = l := List.take_of_length_le (le_of_lt h)
  have hdrop : l.drop n = [] := List.drop_eq_nil_of_le (le_of_lt h)
  rw [htake, hdrop]
  show (if l.length = n then [l] else []) ++ slideLoop l [] = []
  rw [if_neg (Nat.ne_of_lt h)]
  rfl

/-- Every element of a window produced by the shift loop comes from the
original sequence. -/
theorem slideLoop_mem {α : Type} (l : List α) :
    ∀ (rest result : List α), (∀ x ∈ result, x ∈ l) → (∀ x ∈ rest, x ∈ l) →
      ∀ page ∈ slideLoop result rest, ∀ x ∈ page, x ∈ l
  | [], _, _, _, page, hp => by simp [slideLoop] at hp
  | e :: rest, result, hres, hrest, page, hp => by
      have hr : ∀ x ∈ result.drop 1 ++ [e], x ∈ l := by
        intro x hx
        rcases List.mem_append.mp hx with hx | hx
        · exact hres x (List.drop_subset 1 result hx)
        · rw [List.mem_singleton.mp hx]
          exact hrest e (List.mem_cons_self _ _)
      rcases List.mem_cons.mp hp with hp | hp
      · intro x hx
        rw [hp] at hx
        exact hr x hx
      · exact slideLoop_mem l rest (result.drop 1 ++ [e]) hr
          (fun x hx => hrest x (List.mem_cons_of_mem _ hx)) page hp

/-- Every element of every page yielded by functions.window comes from the
original sequence. -/
theorem window_mem {α : Type} (l : List α) (n : Nat) :
    ∀ page ∈ window l n, ∀ x ∈ page, x ∈ l := by
  intro page hp x hx
  unfold window at hp
  rcases List.mem_append.mp hp with h | h
  · by_cases hc : (l.take n).length = n
    · rw [if_pos hc] at h
      rw [List.mem_singleton.mp h] at hx
      exact List.take_subset n l hx
    · rw [if_neg hc] at h
      exact absurd h (List.not_mem_nil page)
  · exact slideLoop_mem l (l.drop n) (l.take n)
      (fun y hy => List.take_subset n l hy)
      (fun y hy => List.drop_subset n l hy) page h x hx

/-- A record whose new-video delta is empty leaves the state and the per-page
updated-playlist accumulator untouched, whether or not the cooldown applies. -/
theorem processRecord_of_empty_delta (env : Env) (st : UpdateState)
    (ids : List String) (latest : Int) (ci : ChannelInfo)
    (h : getChannelNewVideos env latest ci = []) :
    processRecord env st ids latest ci = (st, ids) := by
  unfold processRecord
  split
  · rfl
  · unfold consumeRecord
    simp [h]

/-- Folding the per-record step over a page of empty-delta records is the
identity. -/
theorem foldl_processRecord_empty (env : Env) :
    ∀ (page : List (Int × ChannelInfo)),
      (∀ p ∈ page, getChannelNewVideos env p.1 p.2 = []) →
      ∀ (st : UpdateState) (ids : List String),
        page.foldl (fun acc p => processRecord env acc.1 acc.2 p.1 p.2) (st, ids) = (st, ids)
  | [], _, _, _ => rfl
  | p :: rest, h, st, ids => by
      rw [List.foldl_cons]
      rw [show processRecord env (st, ids).1 (st, ids).2 p.1 p.2 = (st, ids) from
        processRecord_of_empty_delta env st ids p.1 p.2 (h p (List.mem_cons_self _ _))]
      exact foldl_processRecord_empty env rest
        (fun q hq => h q (List.mem_cons_of_mem _ hq)) st ids

/-- A page consisting solely of empty-delta records updates nothing and does
not invoke the active-section update. -/
theorem updatePage_of_empty_delta (env : Env) (page : List (Int × ChannelInfo))
    (h : ∀ p ∈ page, getChannelNewVideos env p.1 p.2 = []) (st : UpdateState) :
    updatePage env st page = st := by
  unfold updatePage
  rw [foldl_processRecord_empty env page h st []]
  rfl

/-- If every record of the worklist has an empty delta, the whole consumption
loop is the identity on the store and performs no write and no active-section
call. -/
theorem collectorUpdate_of_empty_delta (env : Env)
    (wl : List (Int × ChannelInfo)) (store : Store)
    (h : ∀ p ∈ wl, getChannelNewVideos env p.1 p.2 = []) :
    collectorUpdate env wl store = ⟨store, [], []⟩ := by
  have hpages : ∀ page ∈ window wl 5, ∀ p ∈ page,
      getChannelNewVideos env p.1 p.2 = [] :=
    fun page hpg p hp => h p (window_mem wl 5 page hpg p hp)
  unfold collectorUpdate
  generalize hw : window wl 5 = pages
  rw [hw] at hpages
  clear hw
  induction pages with
  | nil => rfl
  | cons page rest ih =>
      rw [List.foldl_cons]
      rw [updatePage_of_empty_delta env page
        (hpages page (List.mem_cons_self _ _)) _]
      exact ih (fun q hq p hp => hpages q (List.mem_cons_of_mem _ hq) p hp)

/-- C9: when the selected worklist has fewer than 5 entries the page generator
(functions.window with n=5) yields no page at all, so the update cycle
touches no record: the store is unchanged, nothing is persisted, and the
active section is never invoked. -/
theorem c9_short_worklist_dropped (env : Env) (wl : List (Int × ChannelInfo))
    (store : Store) (h : wl.length < 5) :
    collectorUpdate env wl store = ⟨store, [], []⟩ := by
  unfold collectorUpdate
  rw [window_eq_nil_of_length_lt wl 5 h]
  rfl

/-- Witness for C9: a three-entry worklist, with an environment under which
every channel does have new upstream videos, is silently dropped whole. -/
theorem c9_short_worklist_dropped_witness :
    ([((100 : Int), chanC), (100, chanC), (100, chanC)].length < 5) ∧
    collectorUpdate envC [((100 : Int), chanC), (100, chanC), (100, chanC)] [] =
      ⟨[], [], []⟩ :=
  ⟨by decide, c9_short_worklist_dropped envC _ [] (by decide)⟩

/-- C6: when every worklist record's computed delta is empty, the cycle
performs no persisted write, makes no active-section call, and leaves every
channel record (videos, hash, last-updated timestamp) unchanged; running the
cycle a second time on the resulting store again changes nothing. -/
theorem c6_idempotent_no_new_videos (env : Env) (wl : List (Int × ChannelInfo))
    (store : Store)
    (h : ∀ p ∈ wl, getChannelNewVideos env p.1 p.2 = []) :
    collectorUpdate env wl store = ⟨store, [], []⟩ ∧
    collectorUpdate env wl (collectorUpdate env wl store).store = ⟨store, [], []⟩ := by
  have h1 := collectorUpdate_of_empty_delta env wl store h
  refine ⟨h1, ?_⟩
  rw [h1]
  exact collectorUpdate_of_empty_delta env wl store h

/-- Witness for C6: six worklist entries for channel C whose upstream listing
holds only the already-cached video; the cycle writes nothing. -/
theorem c6_idempotent_no_new_videos_witness :
    (∀ p ∈ wlIdle, getChannelNewVideos envIdle p.1 p.2 = []) ∧
    collectorUpdate envIdle wlIdle [] = ⟨[], [], []⟩ ∧
    collectorUpdate envIdle wlIdle (collectorUpdate envIdle wlIdle []).store =
      ⟨[], [], []⟩ := by
  have h : ∀ p ∈ wlIdle, getChannelNewVideos envIdle p.1 p.2 = [] := by decide
  have hc := c6_idempotent_no_new_videos envIdle wlIdle [] h
  exact ⟨h, hc.1, hc.2⟩

/-- C7: a record whose last_updated_datetime lies within the most recent 7
days of the cycle clock is skipped by the consumption loop (state and
accumulator unchanged, no merge attempted); one outside the 7-day window
proceeds to the merge-and-persist branch. -/
theorem c7_cooldown_guard (env : Env) (st : UpdateState) (ids : List String)
    (latest : Int) (ci : ChannelInfo) (d : Int)
    (hd : ci.last_updated_datetime = some d) :
    (env.now - 7 * daySeconds ≤ d → processRecord env st ids latest ci = (st, ids)) ∧
    (d < env.now - 7 * daySeconds →
      processRecord env st ids latest ci = consumeRecord env st ids latest ci) := by
  constructor
  · intro h
    unfold processRecord inCooldown
    rw [hd]
    simp [ge_iff_le, h]
  · intro h
    unfold processRecord inCooldown
    rw [hd]
    simp [ge_iff_le, not_le.mpr h]

/-- Witness for C7: a channel updated at T = 0 is skipped when the next cycle
runs at T + 3 days and is eligible when it runs at T + 8 days. -/
theorem c7_cooldown_guard_witness :
    processRecord envAt3 st0 [] 100 chanFresh = (st0, []) ∧
    processRecord envAt8 st0 [] 100 chanFresh =
      consumeRecord envAt8 st0 [] 100 chanFresh :=
  ⟨(c7_cooldown_guard envAt3 st0 [] 100 chanFresh 0 rfl).1 (by decide),
   (c7_cooldown_guard envAt8 st0 [] 100 chanFresh 0 rfl).2 (by decide)⟩

/-- One retryable step of the create_channel_playlist loop: a 429 with reason
RATE_LIMIT_EXCEEDED while the retry count is at most MAX_RETRIES increments
the count, sleeps the capped exponential back-off, and re-attempts. -/
theorem createLoop_retry_step (maxR base cap : Nat) (rest : List ApiResult)
    (retries : Nat) (slept : List Nat) (h : retries ≤ maxR) :
    createPlaylistLoop maxR base cap (rateLimitError :: rest) retries slept =
      createPlaylistLoop maxR base cap rest (retries + 1)
        (slept ++ [capSleep base cap (retries + 1)]) := by
  show createPlaylistLoop maxR base cap
    (.httpError 429 (some "RATE_LIMIT_EXCEEDED") :: rest) retries slept = _
  rw [createPlaylistLoop]
  rw [if_pos ⟨h, rfl, rfl⟩]

/-- Shifting a map over an initial range by one position. -/
theorem range_map_shift {α : Type} (f : Nat → α) (k r : Nat) :
    (List.range (k + 1)).map (fun i => f (r + i + 1)) =
      f (r + 1) :: (List.range k).map (fun i => f (r + 1 + i + 1)) := by
  rw [List.range_succ_eq_map, List.map_cons, List.map_map]
  congr 1
  exact List.map_congr_left fun i _ => by
    simp only [Function.comp_apply]
    congr 1
    omega

/-- k retryable failures followed by a success produce the created playlist id
after sleeping the capped back-offs in order, provided the retry budget is not
exhausted. -/
theorem createLoop_replicate (maxR base cap : Nat) (pid : String) :
    ∀ (k r : Nat) (slept : List Nat), r + k ≤ maxR + 1 →
      createPlaylistLoop maxR base cap
        (List.replicate k rateLimitError ++ [ApiResult.success pid]) r slept =
      .created pid (slept ++ (List.range k).map (fun i => capSleep base cap (r + i + 1)))
  | 0, r, slept, _ => by simp [createPlaylistLoop]
  | k + 1, r, slept, h => by
      rw [List.replicate_succ, List.cons_append]
      rw [createLoop_retry_step maxR base cap _ r slept (by omega)]
      rw [createLoop_replicate maxR base cap pid k (r + 1) _ (by omega)]
      rw [range_map_shift (capSleep base cap) k r]
      rw [List.append_assoc, List.singleton_append]

/-- Exceeding the retry budget re-raises whatever error occurred, whatever its
status and reason. -/
theorem createLoop_budget_exceeded (maxR base cap : Nat) (status : Nat)
    (reason : Option String) (rest : List ApiResult) (retries : Nat)
    (slept : List Nat) (h : retries > maxR) :
    createPlaylistLoop maxR base cap (.httpError status reason :: rest) retries slept =
      .raised slept := by
  rw [createPlaylistLoop]
  rw [if_neg (fun hc => absurd hc.1 (by omega))]
  rw [if_pos h]

/-- With retry budget left, a non-retryable, non-quota error re-raises at
once. -/
theorem createLoop_other_error (maxR base cap : Nat) (status : Nat)
    (reason : Option String) (rest : List ApiResult) (retries : Nat)
    (slept : List Nat)
    (h1 : ¬(status = 429 ∧ reason = some "RATE_LIMIT_EXCEEDED"))
    (h2 : retries ≤ maxR)
    (h3 : ¬(status = 403 ∧ reason = some "quotaExceeded")) :
    createPlaylistLoop maxR base cap (.httpError status reason :: rest) retries slept =
      .raised slept := by
  rw [createPlaylistLoop]
  rw [if_neg (fun hc => h1 ⟨hc.2.1, hc.2.2⟩)]
  rw [if_neg (by omega)]
  rw [if_neg h3]

/-- With retry budget left, the quota-exhaustion error terminates the process
(sys.exit(1)). -/
theorem createLoop_quota_exits (maxR base cap : Nat) (rest : List ApiResult)
    (retries : Nat) (slept : List Nat) (h : retries ≤ maxR) :
    createPlaylistLoop maxR base cap (quotaError :: rest) retries slept =
      .exited slept := by
  show createPlaylistLoop maxR base cap
    (.httpError 403 (some "quotaExceeded") :: rest) retries slept = _
  rw [createPlaylistLoop]
  rw [if_neg (fun hc => absurd hc.2.1 (by omega))]
  rw [if_neg (by omega)]
  rw [if_pos ⟨rfl, rfl⟩]

/-- A run whose prefix of channels all create successfully and whose next
channel exits stops immediately: exactly the prefix is persisted and no later
channel is attempted. -/
theorem runCreate_exits_after_pre (maxR base cap : Nat) :
    ∀ (pre : List (String × List ApiResult)) (c : String)
      (attempts : List ApiResult) (post : List (String × List ApiResult))
      (store : List String),
      (∀ p ∈ pre, ∃ pid slept,
        createPlaylistLoop maxR base cap p.2 0 [] = .created pid slept) →
      (∃ slept, createPlaylistLoop maxR base cap attempts 0 [] = .exited slept) →
      runCreate maxR base cap (pre ++ (c, attempts) :: post) store =
        (store ++ pre.map Prod.fst, .exited)
  | [], c, attempts, post, store, _, hq => by
      obtain ⟨slept, hq⟩ := hq
      show runCreate maxR base cap ((c, attempts) :: post) store = _
      rw [runCreate, hq]
      simp
  | (cid, catts) :: pre, c, attempts, post, store, hpre, hq => by
      obtain ⟨pid, slept, hc⟩ := hpre (cid, catts) (List.mem_cons_self _ _)
      show runCreate maxR base cap
        ((cid, catts) :: (pre ++ (c, attempts) :: post)) store = _
      rw [runCreate, hc]
      rw [runCreate_exits_after_pre maxR base cap pre c attempts post
        (store ++ [cid]) (fun p hp => hpre p (List.mem_cons_of_mem _ hp)) hq]
      simp

/-- C4: with retry budget available, an insert failure with HTTP 403 and
detailed reason quotaExceeded makes create_channel_playlist call sys.exit(1),
and in a run over a worklist this terminates everything at once: channels
already processed keep their persisted records, the failing channel persists
nothing, and no later channel is attempted. -/
theorem c4_quota_terminates_process (maxR base cap : Nat) :
    (∀ (rest : List ApiResult) (retries : Nat) (slept : List Nat),
      retries ≤ maxR →
      createPlaylistLoop maxR base cap (quotaError :: rest) retries slept =
        .exited slept) ∧
    (∀ (pre : List (String × List ApiResult)) (c : String)
        (attempts : List ApiResult) (post : List (String × List ApiResult))
        (store : List String),
      (∀ p ∈ pre, ∃ pid slept,
        createPlaylistLoop maxR base cap p.2 0 [] = .created pid slept) →
      (∃ slept, createPlaylistLoop maxR base cap attempts 0 [] = .exited slept) →
      runCreate maxR base cap (pre ++ (c, attempts) :: post) store =
        (store ++ pre.map Prod.fst, .exited)) :=
  ⟨fun rest retries slept h => createLoop_quota_exits maxR base cap rest retries slept h,
   fun pre c attempts post store hpre hq =>
     runCreate_exits_after_pre maxR base cap pre c attempts post store hpre hq⟩

/-- Witness for C4: quota exhaustion on channel 3 of 5 — channels 1 and 2
remain persisted, channels 4 and 5 are never attempted. -/
theorem c4_quota_terminates_process_witness :
    runCreate MAX_RETRIES BASE_SLEEP_SECONDS MAX_SLEEP_SECONDS wl5 [] =
      (["c1", "c2"], .exited) := by
  have h := (c4_quota_terminates_process MAX_RETRIES BASE_SLEEP_SECONDS
      MAX_SLEEP_SECONDS).2
    [("c1", [.success "P1"]), ("c2", [.success "P2"])] "c3" [quotaError]
    [("c4", [.success "P4"]), ("c5", [.success "P5"])] []
    (by
      intro p hp
      rcases List.mem_cons.mp hp with hp | hp
      · exact ⟨"P1", [], by subst hp; rfl⟩
      · rcases List.mem_cons.mp hp with hp | hp
        · exact ⟨"P2", [], by subst hp; rfl⟩
        · exact absurd hp (List.not_mem_nil p))
    ⟨[], rfl⟩
  exact h.trans (by decide)

/-- C5: a failure is retried exactly when it is HTTP 429 with detailed reason
RATE_LIMIT_EXCEEDED and the retry count is at most the configured maximum;
each re-attempt is preceded by a sleep of base^retry_count seconds capped at
the configured ceiling; once the count exceeds the maximum any failure is
re-raised to the caller; and k retryable failures followed by a success yield
the created playlist id after the capped sleeps base^1 .. base^k. -/
theorem c5_rate_limit_retry (maxR base cap : Nat) :
    (∀ (pid : String) (k : Nat), k ≤ maxR + 1 →
      createPlaylistLoop maxR base cap
        (List.replicate k rateLimitError ++ [ApiResult.success pid]) 0 [] =
        .created pid ((List.range k).map (fun i => capSleep base cap (i + 1)))) ∧
    (∀ (status : Nat) (reason : Option String) (rest : List ApiResult)
        (retries : Nat) (slept : List Nat), retries > maxR →
      createPlaylistLoop maxR base cap (.httpError status reason :: rest) retries slept =
        .raised slept) ∧
    (∀ (status : Nat) (reason : Option String) (rest : List ApiResult)
        (retries : Nat) (slept : List Nat),
      ¬(status = 429 ∧ reason = some "RATE_LIMIT_EXCEEDED") → retries ≤ maxR →
      ¬(status = 403 ∧ reason = some "quotaExceeded") →
      createPlaylistLoop maxR base cap (.httpError status reason :: rest) retries slept =
        .raised slept) := by
  refine ⟨fun pid k hk => ?_, ?_, ?_⟩
  · have h := createLoop_replicate maxR base cap pid k 0 [] (by omega)
    simpa using h
  · exact fun status reason rest retries slept h =>
      createLoop_budget_exceeded maxR base cap status reason rest retries slept h
  · exact fun status reason rest retries slept h1 h2 h3 =>
      createLoop_other_error maxR base cap status reason rest retries slept h1 h2 h3

/-- Witness for C5: two rate-limit failures then success, with the settings
constants (max 8 retries, base 10s, cap 5400s): outcome is the created
playlist id after sleeping 10 then 100 seconds. -/
theorem c5_rate_limit_retry_witness :
    (2 ≤ MAX_RETRIES + 1) ∧
    createPlaylistLoop MAX_RETRIES BASE_SLEEP_SECONDS MAX_SLEEP_SECONDS
      (List.replicate 2 rateLimitError ++ [ApiResult.success "PID"]) 0 [] =
      .created "PID" [10, 100] := by
  refine ⟨by decide, ?_⟩
  have h := (c5_rate_limit_retry MAX_RETRIES BASE_SLEEP_SECONDS
    MAX_SLEEP_SECONDS).1 "PID" 2 (by decide)
  exact h.trans (by decide)

/-- keepLoop skips a section member already present in the accumulated id
list (the Python membership test short-circuits before touching the
datetime). -/
theorem keepLoop_cons_present (cutoff : Int) (q : String) (lat : Option Int)
    (ci : ChannelInfo) (rest : List (String × Option Int × ChannelInfo))
    (acc : List String) (hq : q ∈ acc) :
    keepLoop cutoff ((q, lat, ci) :: rest) acc = keepLoop cutoff rest acc := by
  simp only [keepLoop]
  rw [if_pos (by simpa using hq)]

/-- keepLoop keeps a not-yet-present member whose datetime is within the
retention window. -/
theorem keepLoop_cons_keep (cutoff : Int) (q : String) (t : Int)
    (ci : ChannelInfo) (rest : List (String × Option Int × ChannelInfo))
    (acc : List String) (hq : q ∉ acc) (ht : t ≥ cutoff) :
    keepLoop cutoff ((q, some t, ci) :: rest) acc =
      keepLoop cutoff rest (acc ++ [q]) := by
  simp only [keepLoop]
  rw [if_neg (by simpa using hq)]
  rw [if_pos ht]

/-- keepLoop drops a not-yet-present member whose datetime is outside the
retention window. -/
theorem keepLoop_cons_drop (cutoff : Int) (q : String) (t : Int)
    (ci : ChannelInfo) (rest : List (String × Option Int × ChannelInfo))
    (acc : List String) (hq : q ∉ acc) (ht : ¬t ≥ cutoff) :
    keepLoop cutoff ((q, some t, ci) :: rest) acc = keepLoop cutoff rest acc := by
  simp only [keepLoop]
  rw [if_neg (by simpa using hq)]
  rw [if_neg ht]

/-- Membership in the id list produced by the cold-cache keep/drop loop:
an id survives into the written set exactly when it was among the new ids or
some section entry carries it with a watermark inside the retention window. -/
theorem keepLoop_mem (cutoff : Int) :
    ∀ (info : List (String × Option Int × ChannelInfo)) (acc kept : List String),
      keepLoop cutoff info acc = .ok kept →
      ∀ pid, pid ∈ kept ↔ pid ∈ acc ∨ ∃ t ci, (pid, some t, ci) ∈ info ∧ cutoff ≤ t
  | [], acc, kept, h, pid => by
      simp only [keepLoop] at h
      injection h with h
      subst h
      simp
  | (q, lat, ci) :: rest, acc, kept, h, pid => by
      by_cases hq : q ∈ acc
      · rw [keepLoop_cons_present cutoff q lat ci rest acc hq] at h
        rw [keepLoop_mem cutoff rest acc kept h pid]
        constructor
        · rintro (ha | ⟨t, ci', hmem, ht⟩)
          · exact Or.inl ha
          · exact Or.inr ⟨t, ci', List.mem_cons_of_mem _ hmem, ht⟩
        · rintro (ha | ⟨t, ci', hmem, ht⟩)
          · exact Or.inl ha
          · rcases List.mem_cons.mp hmem with he | hmem
            · have hpq : pid = q := congrArg Prod.fst he
              subst hpq
              exact Or.inl hq
            · exact Or.inr ⟨t, ci', hmem, ht⟩
      · cases lat with
        | none =>
            rw [show keepLoop cutoff ((q, none, ci) :: rest) acc = .error () from by
              simp only [keepLoop]; rw [if_neg (by simpa using hq)]] at h
            exact absurd h (by simp)
        | some t =>
            by_cases ht : t ≥ cutoff
            · rw [keepLoop_cons_keep cutoff q t ci rest acc hq ht] at h
              rw [keepLoop_mem cutoff rest (acc ++ [q]) kept h pid]
              constructor
              · rintro (ha | ⟨t', ci', hmem, ht'⟩)
                · rcases List.mem_append.mp ha with ha | ha
                  · exact Or.inl ha
                  · have hpq : pid = q := List.mem_singleton.mp ha
                    subst hpq
                    exact Or.inr ⟨t, ci, List.mem_cons_self _ _, ht⟩
                · exact Or.inr ⟨t', ci', List.mem_cons_of_mem _ hmem, ht'⟩
              · rintro (ha | ⟨t', ci', hmem, ht'⟩)
                · exact Or.inl (List.mem_append.mpr (Or.inl ha))
                · rcases List.mem_cons.mp hmem with he | hmem
                  · have hpq : pid = q := congrArg Prod.fst he
                    subst hpq
                    exact Or.inl (List.mem_append.mpr
                      (Or.inr (List.mem_singleton.mpr rfl)))
                  · exact Or.inr ⟨t', ci', hmem, ht'⟩
            · rw [keepLoop_cons_drop cutoff q t ci rest acc hq ht] at h
              rw [keepLoop_mem cutoff rest acc kept h pid]
              constructor
              · rintro (ha | ⟨t', ci', hmem, ht'⟩)
                · exact Or.inl ha
                · exact Or.inr ⟨t', ci', List.mem_cons_of_mem _ hmem, ht'⟩
              · rintro (ha | ⟨t', ci', hmem, ht'⟩)
                · exact Or.inl ha
                · rcases List.mem_cons.mp hmem with he | hmem
                  · have ht2 : some t' = some t := congrArg (fun p => p.2.1) he
                    injection ht2 with ht2
                    subst ht2
                    exact absurd ht' ht
                  · exact Or.inr ⟨t', ci', hmem, ht'⟩

/-- C8: with a cold membership cache, an existing active-section member not
among the new playlist ids is kept exactly when its channel's watermark is
within the retention window (and a new id is always kept); and on the spec
scenario (new ids P1, P2; existing member P3 with stale watermark) the
written-back membership is exactly P2, P1 — P3 is dropped. -/
theorem c8_curator_retention :
    (∀ (cutoff : Int) (info : List (String × Option Int × ChannelInfo))
        (ids kept : List String),
      keepLoop cutoff info ids = .ok kept →
      ∀ pid, pid ∈ kept ↔
        pid ∈ ids ∨ ∃ t ci, (pid, some t, ci) ∈ info ∧ cutoff ≤ t) ∧
    updateActiveJourneysSection DEFAULT_UPDATE_DAYS nowX 50 dataX []
      sectionInfoX ["P1", "P2"] = .ok ["P2", "P1"] ∧
    (∀ p, p ∈ (["P2", "P1"] : List String) ↔ p = "P1" ∨ p = "P2") := by
  refine ⟨fun cutoff info ids kept h pid =>
    keepLoop_mem cutoff info ids kept h pid, by rfl, ?_⟩
  intro p
  constructor
  · intro h
    rcases List.mem_cons.mp h with h | h
    · exact Or.inr h
    · exact Or.inl (List.mem_singleton.mp h)
  · rintro (h | h) <;> subst h <;> simp

/-- Witness for C8: the keep/drop characterization applied at the scenario's
concrete state: P3, outside the window, gains no membership beyond the new
ids. -/
theorem c8_curator_retention_witness :
    "P3" ∈ (["P1", "P2"] : List String) ↔
      "P3" ∈ (["P1", "P2"] : List String) ∨
        ∃ t ci, ("P3", some t, ci) ∈ sectionInfoX ∧ (1000 : Int) ≤ t :=
  (c8_curator_retention).1 1000 sectionInfoX ["P1", "P2"] ["P1", "P2"]
    (by rfl) "P3"

/-- A successful true answer of the tuple comparison exposes the strict key
order. -/
theorem tupLt_ok_true {u v : Option Int × ChannelInfo}
    (h : tupLtChannel u v = .ok true) : ltKey u v := by
  obtain ⟨ku, cu⟩ := u
  obtain ⟨kv, cv⟩ := v
  cases ku with
  | none => cases kv <;> simp [tupLtChannel] at h
  | some a =>
      cases kv with
      | none => simp [tupLtChannel] at h
      | some b =>
          by_cases hab : a = b
          · simp [tupLtChannel, hab] at h
          · simp only [tupLtChannel, if_neg hab] at h
            injection h with h
            exact ⟨a, b, rfl, rfl, by simpa using h⟩

/-- A successful false answer of the tuple comparison exposes the reverse
strict key order. -/
theorem tupLt_ok_false {u v : Option Int × ChannelInfo}
    (h : tupLtChannel u v = .ok false) : ltKey v u := by
  obtain ⟨ku, cu⟩ := u
  obtain ⟨kv, cv⟩ := v
  cases ku with
  | none => cases kv <;> simp [tupLtChannel] at h
  | some a =>
      cases kv with
      | none => simp [tupLtChannel] at h
      | some b =>
          by_cases hab : a = b
          · simp [tupLtChannel, hab] at h
          · simp only [tupLtChannel, if_neg hab] at h
            injection h with h
            have hba : ¬a < b := by simpa using h
            exact ⟨b, a, rfl, rfl, by omega⟩

/-- The realised key order is transitive. -/
theorem ltKey_trans {u v w : Option Int × ChannelInfo}
    (h1 : ltKey u v) (h2 : ltKey v w) : ltKey u w := by
  obtain ⟨a, b, ha, hb, hab⟩ := h1
  obtain ⟨b', c, hb', hc, hbc⟩ := h2
  have hbb : some b = some b' := hb.symm.trans hb'
  injection hbb with hbb
  exact ⟨a, c, ha, hc, by omega⟩

/-- Strictly ordered keys are in particular compatible. -/
theorem ltKey_compat {u v : Option Int × ChannelInfo} (h : ltKey u v) :
    compatKey u v := by
  obtain ⟨a, b, ha, hb, hab⟩ := h
  exact ⟨a, b, ha, hb, by omega⟩

/-- Compatibility also follows from the reverse order. -/
theorem ltKey_compat_rev {u v : Option Int × ChannelInfo} (h : ltKey v u) :
    compatKey u v := by
  obtain ⟨a, b, ha, hb, hab⟩ := h
  exact ⟨b, a, hb, ha, by omega⟩

/-- Equal keys, or a missing key, make the strict order impossible. -/
theorem not_ltKey_of_conflict {u v : Option Int × ChannelInfo}
    (hc : u.1 = v.1 ∨ u.1 = none ∨ v.1 = none) : ¬ltKey u v := by
  rintro ⟨a, b, ha, hb, hab⟩
  rcases hc with hc | hc | hc
  · have : some a = some b := ha.symm.trans (hc.trans hb)
    injection this with this
    omega
  · rw [hc] at ha
    exact Option.noConfusion ha
  · rw [hc] at hb
    exact Option.noConfusion hb

/-- A successful insertion into a strictly sorted list stays strictly sorted,
witnessed compatibility of the inserted element with every list element, and
adds exactly that element. -/
theorem insertF_ok_channel (x : Option Int × ChannelInfo) :
    ∀ (s r : List (Option Int × ChannelInfo)), s.Pairwise ltKey →
      insertF tupLtChannel x s = .ok r →
      r.Pairwise ltKey ∧ (∀ y ∈ s, compatKey x y) ∧ (∀ z, z ∈ r ↔ z = x ∨ z ∈ s)
  | [], r, _, h => by
      simp only [insertF] at h
      injection h with h
      subst h
      exact ⟨List.pairwise_singleton _ _, by simp, by simp⟩
  | y :: ys, r, hs, h => by
      rw [List.pairwise_cons] at hs
      cases hlt : tupLtChannel x y with
      | error e =>
          simp only [insertF, hlt] at h
          exact Except.noConfusion h
      | ok b =>
          cases b with
          | true =>
              simp only [insertF, hlt] at h
              injection h with h
              subst h
              have hxy : ltKey x y := tupLt_ok_true hlt
              have hxz : ∀ z ∈ ys, ltKey x z :=
                fun z hz => ltKey_trans hxy (hs.1 z hz)
              refine ⟨?_, ?_, by simp⟩
              · rw [List.pairwise_cons]
                refine ⟨?_, ?_⟩
                · intro z hz
                  rcases List.mem_cons.mp hz with hz | hz
                  · subst hz; exact hxy
                  · exact hxz z hz
                · rw [List.pairwise_cons]
                  exact hs
              · intro z hz
                rcases List.mem_cons.mp hz with hz | hz
                · subst hz; exact ltKey_compat hxy
                · exact ltKey_compat (hxz z hz)
          | false =>
              have hyx : ltKey y x := tupLt_ok_false hlt
              cases hrec : insertF tupLtChannel x ys with
              | error e =>
                  simp only [insertF, hlt, hrec] at h
                  exact Except.noConfusion h
              | ok r' =>
                  simp only [insertF, hlt, hrec] at h
                  injection h with h
                  subst h
                  obtain ⟨hp, hcomp, hmem⟩ := insertF_ok_channel x ys r' hs.2 hrec
                  refine ⟨?_, ?_, ?_⟩
                  · rw [List.pairwise_cons]
                    refine ⟨?_, hp⟩
                    intro z hz
                    rcases (hmem z).mp hz with hz | hz
                    · subst hz; exact hyx
                    · exact hs.1 z hz
                  · intro z hz
                    rcases List.mem_cons.mp hz with hz | hz
                    · subst hz; exact ltKey_compat_rev hyx
                    · exact hcomp z hz
                  · intro z
                    rw [List.mem_cons, hmem z, List.mem_cons]
                    tauto

/-- A successful run of the fallible sort produces a strictly sorted
permutation-equal list: element membership is preserved. -/
theorem sortF_ok_channel :
    ∀ (l s : List (Option Int × ChannelInfo)),
      sortF tupLtChannel l = .ok s →
      s.Pairwise ltKey ∧ (∀ z, z ∈ s ↔ z ∈ l)
  | [], s, h => by
      simp only [sortF] at h
      injection h with h
      subst h
      exact ⟨List.Pairwise.nil, by simp⟩
  | x :: xs, s, h => by
      cases hrec : sortF tupLtChannel xs with
      | error e =>
          simp only [sortF, hrec] at h
          exact Except.noConfusion h
      | ok s0 =>
          simp only [sortF, hrec] at h
          obtain ⟨hp0, hmem0⟩ := sortF_ok_channel xs s0 hrec
          obtain ⟨hp, _, hmem⟩ := insertF_ok_channel x s0 s hp0 h
          refine ⟨hp, fun z => ?_⟩
          rw [hmem z, List.mem_cons, hmem0 z]

/-- Two distinct tuples with conflicting keys (equal, or one missing) force
the fallible sort to raise. -/
theorem sortF_error_of_conflict (u v : Option Int × ChannelInfo)
    (l : List (Option Int × ChannelInfo)) (hu : u ∈ l) (hv : v ∈ l)
    (hne : u ≠ v) (hc : u.1 = v.1 ∨ u.1 = none ∨ v.1 = none) :
    sortF tupLtChannel l = .error () := by
  cases hres : sortF tupLtChannel l with
  | error e => cases e; rfl
  | ok s =>
      obtain ⟨hp, hmem⟩ := sortF_ok_channel l s hres
      have hus : u ∈ s := (hmem u).mpr hu
      have hvs : v ∈ s := (hmem v).mpr hv
      have hsym : Symmetric (fun a b => ltKey a b ∨ ltKey b a) :=
        fun a b h => h.symm
      have hp' : s.Pairwise (fun a b => ltKey a b ∨ ltKey b a) :=
        hp.imp (fun h => Or.inl h)
      have hor := List.Pairwise.forall hsym hp' hus hvs hne
      have hc' : v.1 = u.1 ∨ v.1 = none ∨ u.1 = none := by tauto
      rcases hor with h | h
      · exact absurd h (not_ltKey_of_conflict hc)
      · exact absurd h (not_ltKey_of_conflict hc')

/-- The reverse-sorting wrapper inherits the raise. -/
theorem pySortedRev_error_of_conflict (u v : Option Int × ChannelInfo)
    (l : List (Option Int × ChannelInfo)) (hu : u ∈ l) (hv : v ∈ l)
    (hne : u ≠ v) (hc : u.1 = v.1 ∨ u.1 = none ∨ v.1 = none) :
    pySortedRev tupLtChannel l = .error () := by
  unfold pySortedRev
  rw [sortF_error_of_conflict u v l.reverse (List.mem_reverse.mpr hu)
    (List.mem_reverse.mpr hv) hne hc]

/-- Each accumulation step of the window-less selection only appends. -/
theorem sortedbyStep_extends (gte : Option Int)
    (acc : List (Option Int × ChannelInfo)) (ci : ChannelInfo) :
    ∃ ext, sortedbyStep gte acc ci = acc ++ ext := by
  unfold sortedbyStep
  cases h : latestVideopublishedat ci with
  | none => exact ⟨[], (List.append_nil acc).symm⟩
  | some t =>
      cases gte with
      | none => exact ⟨[(some t, ci)], rfl⟩
      | some g =>
          refine ⟨[(some t, ci)], ?_⟩
          show (if t ≥ g then acc ++ [(some t, ci)] else acc ++ [(some t, ci)]) =
            acc ++ [(some t, ci)]
          exact ite_self _

/-- Each accumulation step of the explicit-ids selection only appends. -/
theorem byChannelidsStep_extends (channelIds : List String)
    (acc : List (Option Int × ChannelInfo)) (ci : ChannelInfo) :
    ∃ ext, byChannelidsStep channelIds acc ci = acc ++ ext := by
  unfold byChannelidsStep
  by_cases h : channelIds.contains ci.channel_id
  · rw [if_pos h]
    exact ⟨[(latestVideopublishedat ci, ci)], rfl⟩
  · rw [if_neg h]
    exact ⟨[], (List.append_nil acc).symm⟩

/-- Folding an append-only step preserves accumulator membership. -/
theorem foldl_extends_mem {α β : Type} (step : List α → β → List α)
    (hstep : ∀ acc b, ∃ ext, step acc b = acc ++ ext) :
    ∀ (data : List β) (acc : List α) (x : α), x ∈ acc → x ∈ data.foldl step acc
  | [], _, _, hx => hx
  | b :: rest, acc, x, hx => by
      rw [List.foldl_cons]
      obtain ⟨ext, he⟩ := hstep acc b
      refine foldl_extends_mem step hstep rest _ x ?_
      rw [he]
      exact List.mem_append_left ext hx

/-- When a record resolves a watermark, the window-less selection accumulates
its pair, whatever the gte bound. -/
theorem sortedbyStep_of_some (gte : Option Int)
    (acc : List (Option Int × ChannelInfo)) (ci : ChannelInfo) (t : Int)
    (hl : latestVideopublishedat ci = some t) :
    sortedbyStep gte acc ci = acc ++ [(some t, ci)] := by
  unfold sortedbyStep
  rw [hl]
  cases gte with
  | none => rfl
  | some g => exact ite_self _

/-- A loaded record with a resolved watermark appears in the window-less
selection's accumulated list. -/
theorem sortedbyLoop_mem_aux (gte : Option Int) :
    ∀ (data : List ChannelInfo) (acc : List (Option Int × ChannelInfo))
      (ci : ChannelInfo) (t : Int), ci ∈ data →
      latestVideopublishedat ci = some t →
      (some t, ci) ∈ data.foldl (sortedbyStep gte) acc
  | [], _, _, _, h, _ => absurd h (List.not_mem_nil _)
  | c :: rest, acc, ci, t, h, hl => by
      rw [List.foldl_cons]
      rcases List.mem_cons.mp h with h | h
      · subst h
        refine foldl_extends_mem (sortedbyStep gte)
          (sortedbyStep_extends gte) rest _ _ ?_
        rw [sortedbyStep_of_some gte acc ci t hl]
        exact List.mem_append_right acc (List.mem_singleton.mpr rfl)
      · exact sortedbyLoop_mem_aux gte rest _ ci t h hl

/-- A loaded record among the requested ids appears in the explicit-ids
selection's accumulated list, with whatever watermark it resolves. -/
theorem byChannelidsLoop_mem_aux (channelIds : List String) :
    ∀ (data : List ChannelInfo) (acc : List (Option Int × ChannelInfo))
      (ci : ChannelInfo), ci ∈ data → ci.channel_id ∈ channelIds →
      (latestVideopublishedat ci, ci) ∈ data.foldl (byChannelidsStep channelIds) acc
  | [], _, _, h, _ => absurd h (List.not_mem_nil _)
  | c :: rest, acc, ci, h, hid => by
      rw [List.foldl_cons]
      rcases List.mem_cons.mp h with h | h
      · subst h
        refine foldl_extends_mem (byChannelidsStep channelIds)
          (byChannelidsStep_extends channelIds) rest _ _ ?_
        unfold byChannelidsStep
        rw [if_pos (by simpa using hid)]
        exact List.mem_append_right acc (List.mem_singleton.mpr rfl)
      · exact byChannelidsLoop_mem_aux channelIds rest _ ci h hid

/-- C10: both worklist-selection sorts go through Python's tuple comparison,
whose tie-breaking falls through to unorderable values.  If two distinct
loaded records resolve exactly equal watermarks, the window-less selection
raises TypeError instead of returning a worklist; and in the explicit-ids
variant, one record with no resolvable watermark alongside one with a
watermark likewise raises. -/
theorem c10_selection_sort_typeerror :
    (∀ (data : List ChannelInfo) (gte : Option Int) (ci1 ci2 : ChannelInfo)
        (t : Int), ci1 ∈ data → ci2 ∈ data → ci1 ≠ ci2 →
      latestVideopublishedat ci1 = some t →
      latestVideopublishedat ci2 = some t →
      getChannelinfoSortedbyVideopublishedat data gte = .error ()) ∧
    (∀ (data : List ChannelInfo) (channelIds : List String)
        (ci1 ci2 : ChannelInfo) (t : Int), ci1 ∈ data → ci2 ∈ data →
      ci1.channel_id ∈ channelIds → ci2.channel_id ∈ channelIds →
      latestVideopublishedat ci1 = none →
      latestVideopublishedat ci2 = some t →
      getChannelinfoByChannelids data channelIds = .error ()) := by
  constructor
  · intro data gte ci1 ci2 t h1 h2 hne hl1 hl2
    unfold getChannelinfoSortedbyVideopublishedat sortedbyLoop
    refine pySortedRev_error_of_conflict (some t, ci1) (some t, ci2) _
      (sortedbyLoop_mem_aux gte data [] ci1 t h1 hl1)
      (sortedbyLoop_mem_aux gte data [] ci2 t h2 hl2)
      (fun he => hne (congrArg Prod.snd he)) (Or.inl rfl)
  · intro data channelIds ci1 ci2 t h1 h2 hid1 hid2 hl1 hl2
    unfold getChannelinfoByChannelids byChannelidsLoop
    have hm1 := byChannelidsLoop_mem_aux channelIds data [] ci1 h1 hid1
    have hm2 := byChannelidsLoop_mem_aux channelIds data [] ci2 h2 hid2
    rw [hl1] at hm1
    rw [hl2] at hm2
    refine pySortedRev_error_of_conflict (none, ci1) (some t, ci2) _ hm1 hm2
      ?_ (Or.inr (Or.inl rfl))
    intro he
    have : (none : Option Int) = some t := congrArg Prod.fst he
    exact Option.noConfusion this

/-- Witness for C10: two concrete channels with equal watermarks make the
window-less selection raise; a channel with no videos next to one with a
watermark makes the explicit-ids selection raise. -/
theorem c10_selection_sort_typeerror_witness :
    getChannelinfoSortedbyVideopublishedat [cE1, cE2] none = .error () ∧
    getChannelinfoByChannelids [cN, cE2] ["N", "E2"] = .error () :=
  ⟨(c10_selection_sort_typeerror).1 [cE1, cE2] none cE1 cE2 50
      (by simp) (by simp) (by decide) rfl rfl,
   (c10_selection_sort_typeerror).2 [cN, cE2] ["N", "E2"] cN cE2 50
      (by simp) (by simp) (by decide) (by decide) rfl rfl⟩

end DTF
